import Mathlib

/-!
Shallow embedding of the Starry-OS `simple-ahci` driver, limited to the parts
the verified claims are about: the DMA data model (`types.rs`), the command
execution primitive `AhciPort::exec_cmd` and the read/write pipeline
`AhciDriver::rw_common` (`ahci.rs`).

Machine integers are modelled as `Nat`; `as u8` / `as u32` casts are written
as `% 2 ^ 8` / `% 2 ^ 32` at the point the source performs them.  MMIO
register polling, timeouts and cache maintenance are not modelled: the
embedding describes the values the driver writes into the DMA structures and
the `CI` register on the code paths that do not depend on device timing.
-/

/-! ## Constants from `src/types.rs` -/

def AHCI_MAX_CMDS : Nat := 32

def AHCI_MAX_SG : Nat := 56

def AHCI_MAX_BYTES_PER_SG : Nat := 4 * 1024 * 1024

def AHCI_MAX_BYTES_PER_CMD : Nat := AHCI_MAX_SG * AHCI_MAX_BYTES_PER_SG

/-! ## ATA constants

The crate's `ata` module (declared in `lib.rs`, used by `ahci.rs`) is not
present under `src/`; the values below are the ones the specification fixes
for it. -/

/-- Modelled from the spec: `src/ata.rs` is absent; §6 fixes `0x20` as the
ATA READ (LBA28) opcode. -/
def ATA_CMD_READ : Nat := 0x20

/-- Modelled from the spec: `src/ata.rs` is absent; §6 fixes `0x30` as the
ATA WRITE (LBA28) opcode. -/
def ATA_CMD_WRITE : Nat := 0x30

/-- Modelled from the spec: `src/ata.rs` is absent; §6 fixes `0x24` as the
ATA READ EXT (LBA48) opcode. -/
def ATA_CMD_READ_EXT : Nat := 0x24

/-- Modelled from the spec: `src/ata.rs` is absent; §6 fixes `0x34` as the
ATA WRITE EXT (LBA48) opcode. -/
def ATA_CMD_WRITE_EXT : Nat := 0x34

/-- Modelled from the spec: `src/ata.rs` is absent; §6 and the glossary fix
`0x27` as the Host-to-Device Register FIS type byte. -/
def SATA_FIS_TYPE_REGISTER_H2D : Nat := 0x27

/-! ## DMA structures from `src/types.rs`

Every field is a `Nat` standing for the `u8`/`u32` field of the Rust struct;
the `:= 0` defaults mirror `#[derive(Default)]` (all-zero). -/

/-- The 20-byte Host-to-Device Register FIS (`sata_fis_h2d` in `types.rs`).
`res2` stands for the trailing `[u8; 4]`, always zero here. -/
structure sata_fis_h2d where
  fis_type : Nat := 0
  pm_port_c : Nat := 0
  command : Nat := 0
  features : Nat := 0
  lba_low : Nat := 0
  lba_mid : Nat := 0
  lba_high : Nat := 0
  device : Nat := 0
  lba_low_exp : Nat := 0
  lba_mid_exp : Nat := 0
  lba_high_exp : Nat := 0
  features_exp : Nat := 0
  sector_count : Nat := 0
  sector_count_exp : Nat := 0
  res1 : Nat := 0
  control : Nat := 0
  res2 : Nat := 0
  deriving Repr, DecidableEq

/-- One scatter-gather (PRD) entry, `ahci_sg` in `types.rs`. -/
structure ahci_sg where
  addr_lo : Nat := 0
  addr_hi : Nat := 0
  reserved : Nat := 0
  flags_size : Nat := 0
  deriving Repr, DecidableEq

/-- One Command Header, `ahci_cmd_hdr` in `types.rs`.  `reserved` stands for
the `[u32; 4]` tail, always zero here. -/
structure ahci_cmd_hdr where
  opts : Nat := 0
  status : Nat := 0
  tbl_addr_lo : Nat := 0
  tbl_addr_hi : Nat := 0
  reserved : Nat := 0
  deriving Repr, DecidableEq

/-! ## `AhciPort::exec_cmd` (`src/ahci.rs`, lines 180-276) -/

/-- The scatter-gather entry `exec_cmd` writes for loop index `i` and segment
length `len` (`ahci.rs` lines 210-217): the physical address of
`buf + i * AHCI_MAX_BYTES_PER_SG` split 32/32, and
`flags_size = (len - 1) as u32 & 0x3fffff`.  `phys` stands for
`H::virt_to_phys`. -/
def mkSg (phys : Nat → Nat) (bufAddr i len : Nat) : ahci_sg :=
  let buf_addr := phys (bufAddr + i * AHCI_MAX_BYTES_PER_SG)
  { addr_lo := buf_addr % 2 ^ 32
    addr_hi := (buf_addr >>> 32) % 2 ^ 32
    reserved := 0
    flags_size := ((len - 1) % 2 ^ 32) &&& 0x3fffff }

/-- The segment lengths produced by the `for i in 0..sg_cnt` loop of
`exec_cmd` (`ahci.rs` lines 205-220): at each step
`len = remaining.min(AHCI_MAX_BYTES_PER_SG)` and `remaining -= len`.
The first argument is the number of remaining loop iterations. -/
def sgSegLens : Nat → Nat → List Nat
  | 0, _ => []
  | n + 1, remaining =>
    let len := min remaining AHCI_MAX_BYTES_PER_SG
    len :: sgSegLens n (remaining - len)

/-- The entries written by the same loop, `mkSg` applied at each index. -/
def buildSgsAux (phys : Nat → Nat) (bufAddr : Nat) : Nat → Nat → Nat → List ahci_sg
  | 0, _, _ => []
  | n + 1, i, remaining =>
    let len := min remaining AHCI_MAX_BYTES_PER_SG
    mkSg phys bufAddr i len :: buildSgsAux phys bufAddr n (i + 1) (remaining - len)

/-- `sg_cnt = ((buf.len() - 1) / AHCI_MAX_BYTES_PER_SG) + 1` (`ahci.rs`
line 199), for a non-null, non-empty buffer. -/
def sg_cnt_of (len : Nat) : Nat := (len - 1) / AHCI_MAX_BYTES_PER_SG + 1

/-- The segment lengths of the scatter-gather table `exec_cmd` builds for a
buffer of length `len`. -/
def sgLens (len : Nat) : List Nat := sgSegLens (sg_cnt_of len) len

/-- The scatter-gather table `exec_cmd` builds for a buffer of length `len`
at (virtual) address `bufAddr`. -/
def buildSgs (phys : Nat → Nat) (bufAddr len : Nat) : List ahci_sg :=
  buildSgsAux phys bufAddr (sg_cnt_of len) 0 len

/-- `cfl = size_of::<sata_fis_h2d>() / 4` (`ahci.rs` line 231): the Command
FIS length in dwords. -/
def cfl : Nat := 20 / 4

/-- The Command Header options word (`ahci.rs` line 232):
`opts = (cfl as u32) | ((sg_cnt as u32) << 16) | ((is_write as u32) << 6)`. -/
def optsWord (sg_cnt : Nat) (is_write : Bool) : Nat :=
  cfl ||| (sg_cnt <<< 16) ||| ((if is_write then 1 else 0) <<< 6)

/-- `let slot: u32 = 0;` (`ahci.rs` line 182): the only Command List slot the
driver ever uses. -/
def slot : Nat := 0

/-- The arguments of one `exec_cmd` invocation, together with the two
environment values the port supplies: `phys` stands for `H::virt_to_phys`
and `tblAddr` for the physical address of the port's command table. -/
structure ExecArgs where
  phys : Nat → Nat
  tblAddr : Nat
  cfis : sata_fis_h2d
  bufAddr : Nat
  bufLen : Nat
  bufNull : Bool
  is_write : Bool

/-- The port-owned DMA state `exec_cmd` mutates: the command table's FIS
area, its 56-entry PRDT (indexed 0..55), the 32-entry Command List (indexed
0..31), and the log of values written to the `CI` register. -/
structure PortState where
  cmdTblHdr : sata_fis_h2d
  sgs : Nat → ahci_sg
  cmdList : Nat → ahci_cmd_hdr
  ciWrites : List Nat

/-- The all-zero Command Header: `alloc_zeroed` initial contents of every
Command List slot. -/
def zeroHdr : ahci_cmd_hdr := {}

/-- The port state right after `AhciPort::try_new` allocated its DMA buffers
with `alloc_zeroed`: everything zero, nothing written to `CI` yet. -/
def initPortState : PortState :=
  { cmdTblHdr := {}
    sgs := fun _ => {}
    cmdList := fun _ => zeroHdr
    ciWrites := [] }

/-- The tail of `exec_cmd` once the scatter-gather table is settled
(`ahci.rs` lines 227-261): build `opts`, write the Command Header into
`cmd_list[slot]`, and write `1 << slot` to `CI`. -/
def issueCmd (s : PortState) (sg_cnt : Nat) (a : ExecArgs) : PortState :=
  let opts := optsWord sg_cnt a.is_write
  { s with
    cmdList := fun j =>
      if j = slot then
        { opts := opts
          status := 0
          tbl_addr_lo := a.tblAddr % 2 ^ 32
          tbl_addr_hi := (a.tblAddr >>> 32) % 2 ^ 32
          reserved := 0 }
      else s.cmdList j
    ciWrites := s.ciWrites ++ [1 <<< slot] }

/-- `AhciPort::exec_cmd` (`ahci.rs` lines 180-276) as a state transformer,
on the path where slot 0 was observed free.  Mirrors the source order: the
size check returns before any write; the FIS is copied into the command
table before the scatter-gather count check; the sg-overflow branch returns
with only the FIS written; otherwise the PRDT entries, the Command Header in
slot 0 and the `CI` write follow. -/
def execCmdSt (s : PortState) (a : ExecArgs) : PortState :=
  if a.bufLen > AHCI_MAX_BYTES_PER_CMD then s
  else
    let s1 := { s with cmdTblHdr := a.cfis }
    if ¬a.bufNull ∧ a.bufLen ≠ 0 then
      let sg_cnt := sg_cnt_of a.bufLen
      if sg_cnt > AHCI_MAX_SG then s1
      else
        let sgs := buildSgs a.phys a.bufAddr a.bufLen
        issueCmd
          { s1 with sgs := fun j => if h : j < sgs.length then sgs.get ⟨j, h⟩ else s1.sgs j }
          sg_cnt a
    else issueCmd s1 0 a

/-- The scatter-gather count `exec_cmd` settles on (`ahci.rs` lines
198-225): `sg_cnt_of` the buffer length for a non-null, non-empty buffer,
`0` otherwise. -/
def execSgCnt (a : ExecArgs) : Nat :=
  if ¬a.bufNull ∧ a.bufLen ≠ 0 then sg_cnt_of a.bufLen else 0

/-! ## `AhciDriver::rw_common` (`src/ahci.rs`, lines 405-460) -/

/-- `block_size = 512` (`ahci.rs` line 374). -/
def block_size : Nat := 512

/-- The FIS `rw_common` constructs for one chunk (`ahci.rs` lines 417-450).
`start` is the `u64` LBA of the chunk, `count` its sector count. -/
def buildFis (is_lba48 is_write : Bool) (start count : Nat) : sata_fis_h2d :=
  let base : sata_fis_h2d :=
    { fis_type := SATA_FIS_TYPE_REGISTER_H2D, pm_port_c := 0x80 }
  if is_lba48 then
    { base with
      command := if is_write then ATA_CMD_WRITE_EXT else ATA_CMD_READ_EXT
      lba_low := start % 2 ^ 8
      lba_mid := (start >>> 8) % 2 ^ 8
      lba_high := (start >>> 16) % 2 ^ 8
      lba_low_exp := (start >>> 24) % 2 ^ 8
      lba_mid_exp := (start >>> 32) % 2 ^ 8
      lba_high_exp := (start >>> 40) % 2 ^ 8
      device := 0x40
      sector_count := count &&& 0xff
      sector_count_exp := (count >>> 8) &&& 0xff }
  else
    { base with
      command := if is_write then ATA_CMD_WRITE else ATA_CMD_READ
      lba_low := start % 2 ^ 8
      lba_mid := (start >>> 8) % 2 ^ 8
      lba_high := (start >>> 16) % 2 ^ 8
      device := 0x40 ||| (((start >>> 24) % 2 ^ 8) &&& 0x0f)
      sector_count := count &&& 0xff }

/-- One `exec_cmd` call issued by the `rw_common` loop: the FIS it passes,
and the loop-state values (`start`, `count`, `buf_offset`, `current_bytes`)
that produced it. -/
structure RwCall where
  fis : sata_fis_h2d
  start : Nat
  count : Nat
  buf_offset : Nat
  bytes : Nat
  deriving Repr, DecidableEq

/-- The `while remaining_bytes > 0` loop of `rw_common` (`ahci.rs` lines
410-458), with an explicit iteration budget (`fuel`).  Every iteration with
`remaining_bytes > 0` removes at least one byte, so `fuel = remaining_bytes`
runs the loop to completion. -/
def rwAux (is_lba48 is_write : Bool) : Nat → Nat → Nat → Nat → List RwCall
  | 0, _, _, _ => []
  | fuel + 1, start, remaining_bytes, buf_offset =>
    if remaining_bytes = 0 then []
    else
      let sectors := (remaining_bytes + (block_size - 1)) / block_size
      let max_sectors := if is_lba48 then 65536 else 256
      let count := min sectors max_sectors
      let byte_count := count * block_size
      let current_bytes := min byte_count remaining_bytes
      { fis := buildFis is_lba48 is_write start count
        start := start
        count := count
        buf_offset := buf_offset
        bytes := current_bytes } ::
        rwAux is_lba48 is_write fuel (start + count) (remaining_bytes - current_bytes)
          (buf_offset + current_bytes)

/-- `AhciDriver::rw_common` (`ahci.rs` lines 405-460): the sequence of
`exec_cmd` calls it issues for a buffer of length `bufLen` starting at LBA
`block_id`, paired with its return value (the source returns `true`
unconditionally). -/
def rw_common (is_lba48 : Bool) (block_id bufLen : Nat) (is_write : Bool) :
    List RwCall × Bool :=
  (rwAux is_lba48 is_write bufLen block_id bufLen 0, true)

/-- `AhciDriver::read` (`ahci.rs` lines 394-396). -/
def driverRead (is_lba48 : Bool) (block_id bufLen : Nat) : List RwCall × Bool :=
  rw_common is_lba48 block_id bufLen false

/-- `AhciDriver::write` (`ahci.rs` lines 398-403). -/
def driverWrite (is_lba48 : Bool) (block_id bufLen : Nat) : List RwCall × Bool :=
  rw_common is_lba48 block_id bufLen true

/-- Adjacency relation between consecutive `exec_cmd` calls of one
`rw_common` invocation: the next chunk starts where the previous one ended,
both in LBAs and in buffer offsets. -/
def rwChainRel (a b : RwCall) : Prop :=
  b.start = a.start + a.count ∧ b.buf_offset = a.buf_offset + a.bytes

/-- A concrete `exec_cmd` argument vector used to instantiate theorems: a
512-byte read into the buffer at address 0. -/
def sampleArgs : ExecArgs :=
  { phys := id
    tblAddr := 0
    cfis := {}
    bufAddr := 0
    bufLen := 512
    bufNull := false
    is_write := false }

/-- `sampleArgs` with a buffer one byte over the 224 MiB command limit. -/
def sampleArgsTooLarge : ExecArgs :=
  { sampleArgs with bufLen := AHCI_MAX_BYTES_PER_CMD + 1 }

/-! ## Shape of the scatter-gather table (claims C1, C5) -/

theorem sgSegLens_eq (n L : Nat) (hL : 0 < L)
    (hn : n = (L - 1) / AHCI_MAX_BYTES_PER_SG) :
    sgSegLens (n + 1) L =
      List.replicate n AHCI_MAX_BYTES_PER_SG ++
        [(L - 1) % AHCI_MAX_BYTES_PER_SG + 1] := by
  induction n generalizing L with
  | zero =>
    have hM : L ≤ AHCI_MAX_BYTES_PER_SG := by
      simp only [AHCI_MAX_BYTES_PER_SG] at hn ⊢
      omega
    have h1 : min L AHCI_MAX_BYTES_PER_SG = L := Nat.min_eq_left hM
    have h2 : (L - 1) % AHCI_MAX_BYTES_PER_SG = L - 1 := by
      simp only [AHCI_MAX_BYTES_PER_SG] at hM ⊢
      omega
    simp only [sgSegLens, h1, h2, List.replicate, List.nil_append]
    have h3 : L - 1 + 1 = L := by omega
    rw [h3]
  | succ n ih =>
    have hge : AHCI_MAX_BYTES_PER_SG ≤ L - 1 := by
      simp only [AHCI_MAX_BYTES_PER_SG] at hn ⊢
      omega
    have hmin : min L AHCI_MAX_BYTES_PER_SG = AHCI_MAX_BYTES_PER_SG :=
      Nat.min_eq_right (by omega)
    have hL' : 0 < L - AHCI_MAX_BYTES_PER_SG := by omega
    have hn' : n = (L - AHCI_MAX_BYTES_PER_SG - 1) / AHCI_MAX_BYTES_PER_SG := by
      simp only [AHCI_MAX_BYTES_PER_SG] at hn hge ⊢
      omega
    have hmod : (L - 1) % AHCI_MAX_BYTES_PER_SG
        = (L - AHCI_MAX_BYTES_PER_SG - 1) % AHCI_MAX_BYTES_PER_SG := by
      simp only [AHCI_MAX_BYTES_PER_SG] at hge ⊢
      omega
    have hstep : sgSegLens (n + 1 + 1) L
        = min L AHCI_MAX_BYTES_PER_SG ::
            sgSegLens (n + 1) (L - min L AHCI_MAX_BYTES_PER_SG) := rfl
    rw [hstep, hmin, ih (L - AHCI_MAX_BYTES_PER_SG) hL' hn', hmod,
      List.replicate_succ]
    simp

theorem sgLens_eq (L : Nat) (hL : 0 < L) :
    sgLens L =
      List.replicate ((L - 1) / AHCI_MAX_BYTES_PER_SG) AHCI_MAX_BYTES_PER_SG ++
        [(L - 1) % AHCI_MAX_BYTES_PER_SG + 1] := by
  unfold sgLens sg_cnt_of
  exact sgSegLens_eq _ L hL rfl

theorem flags_size_eq (len : Nat) (h : len ≤ AHCI_MAX_BYTES_PER_SG) :
    ((len - 1) % 2 ^ 32) &&& 0x3fffff = len - 1 := by
  have hM : len ≤ 4194304 := by
    simpa [AHCI_MAX_BYTES_PER_SG] using h
  rw [show (0x3fffff : Nat) = 2 ^ 22 - 1 by norm_num,
    Nat.and_pow_two_sub_one_eq_mod]
  rw [show (2 : Nat) ^ 32 = 4294967296 by norm_num,
    show (2 : Nat) ^ 22 = 4194304 by norm_num]
  omega

theorem buildSgsAux_map_flags (phys : Nat → Nat) (a : Nat) :
    ∀ n i rem, (buildSgsAux phys a n i rem).map ahci_sg.flags_size
      = (sgSegLens n rem).map (fun l => l - 1) := by
  intro n
  induction n with
  | zero => intro i rem; simp [buildSgsAux, sgSegLens]
  | succ n ih =>
    intro i rem
    simp only [buildSgsAux, sgSegLens, List.map_cons, mkSg]
    rw [flags_size_eq _ (Nat.min_le_right _ _), ih]

theorem buildSgsAux_length (phys : Nat → Nat) (a : Nat) :
    ∀ n i rem, (buildSgsAux phys a n i rem).length = n := by
  intro n
  induction n with
  | zero => intro i rem; simp [buildSgsAux]
  | succ n ih => intro i rem; simp [buildSgsAux, ih]

theorem buildSgs_length (phys : Nat → Nat) (a L : Nat) :
    (buildSgs phys a L).length = sg_cnt_of L :=
  buildSgsAux_length phys a _ 0 L

theorem buildSgs_map_flags (phys : Nat → Nat) (a L : Nat) :
    (buildSgs phys a L).map ahci_sg.flags_size
      = (sgLens L).map (fun l => l - 1) :=
  buildSgsAux_map_flags phys a (sg_cnt_of L) 0 L

/-- C1: for every buffer of length `L` with `0 < L ≤ 224 MiB` passed to
`exec_cmd`, the scatter-gather table it builds has exactly `⌈L / 4 MiB⌉`
entries; every entry except the last encodes a byte count (that is,
`flags_size + 1`) of exactly 4 MiB, the last encodes
`((L − 1) mod 4 MiB) + 1`, and the byte counts of all entries sum to `L`. -/
theorem exec_cmd_prdt_shape (phys : Nat → Nat) (bufAddr L : Nat)
    (h1 : 0 < L) (h2 : L ≤ AHCI_MAX_BYTES_PER_CMD) :
    (buildSgs phys bufAddr L).length
        = (L + AHCI_MAX_BYTES_PER_SG - 1) / AHCI_MAX_BYTES_PER_SG ∧
    (buildSgs phys bufAddr L).map (fun e => e.flags_size + 1)
        = List.replicate ((buildSgs phys bufAddr L).length - 1)
            AHCI_MAX_BYTES_PER_SG ++ [(L - 1) % AHCI_MAX_BYTES_PER_SG + 1] ∧
    ((buildSgs phys bufAddr L).map (fun e => e.flags_size + 1)).sum = L := by
  have hlen : (buildSgs phys bufAddr L).length = sg_cnt_of L :=
    buildSgs_length phys bufAddr L
  have hmap : (buildSgs phys bufAddr L).map (fun e => e.flags_size + 1)
      = List.replicate ((L - 1) / AHCI_MAX_BYTES_PER_SG) AHCI_MAX_BYTES_PER_SG ++
          [(L - 1) % AHCI_MAX_BYTES_PER_SG + 1] := by
    have h0 : (buildSgs phys bufAddr L).map (fun e => e.flags_size + 1)
        = ((buildSgs phys bufAddr L).map ahci_sg.flags_size).map (fun x => x + 1) := by
      rw [List.map_map]
      rfl
    rw [h0, buildSgs_map_flags phys bufAddr L, sgLens_eq L h1]
    simp only [List.map_append, List.map_replicate, List.map_cons, List.map_nil]
    have hM1 : AHCI_MAX_BYTES_PER_SG - 1 + 1 = AHCI_MAX_BYTES_PER_SG := by
      simp [AHCI_MAX_BYTES_PER_SG]
    have hr1 : (L - 1) % AHCI_MAX_BYTES_PER_SG + 1 - 1 + 1
        = (L - 1) % AHCI_MAX_BYTES_PER_SG + 1 := by omega
    rw [hM1, hr1]
  refine ⟨?_, ?_, ?_⟩
  · rw [hlen]
    simp only [sg_cnt_of, AHCI_MAX_BYTES_PER_SG]
    omega
  · rw [hmap, hlen]
    simp only [sg_cnt_of, Nat.add_sub_cancel]
  · rw [hmap]
    simp only [List.sum_append, List.sum_replicate, List.sum_cons, List.sum_nil,
      smul_eq_mul]
    simp only [AHCI_MAX_BYTES_PER_SG]
    omega

theorem exec_cmd_prdt_shape_witness :
    0 < 10485760 ∧ 10485760 ≤ AHCI_MAX_BYTES_PER_CMD ∧
    ((buildSgs id 0 10485760).length
        = (10485760 + AHCI_MAX_BYTES_PER_SG - 1) / AHCI_MAX_BYTES_PER_SG ∧
      (buildSgs id 0 10485760).map (fun e => e.flags_size + 1)
        = List.replicate ((buildSgs id 0 10485760).length - 1)
            AHCI_MAX_BYTES_PER_SG ++
            [(10485760 - 1) % AHCI_MAX_BYTES_PER_SG + 1] ∧
      ((buildSgs id 0 10485760).map (fun e => e.flags_size + 1)).sum
        = 10485760) :=
  ⟨by decide, by decide, exec_cmd_prdt_shape id 0 10485760 (by decide) (by decide)⟩

theorem mkSg_flags_lt (phys : Nat → Nat) (a i len : Nat) :
    (mkSg phys a i len).flags_size < 2 ^ 22 := by
  show ((len - 1) % 2 ^ 32) &&& 0x3fffff < 2 ^ 22
  rw [show (0x3fffff : Nat) = 2 ^ 22 - 1 by norm_num,
    Nat.and_pow_two_sub_one_eq_mod]
  exact Nat.mod_lt _ (by norm_num)

theorem buildSgsAux_flags_lt (phys : Nat → Nat) (a : Nat) :
    ∀ n i rem, ∀ e ∈ buildSgsAux phys a n i rem, e.flags_size < 2 ^ 22 := by
  intro n
  induction n with
  | zero => intro i rem e he; simp [buildSgsAux] at he
  | succ n ih =>
    intro i rem e he
    simp only [buildSgsAux, List.mem_cons] at he
    rcases he with he | he
    · rw [he]; exact mkSg_flags_lt phys a i _
    · exact ih (i + 1) _ e he

/-- C5: every scatter-gather entry written by `exec_cmd` has `flags_size`
equal to its byte count minus 1 in the low 22 bits (the byte counts being the
segment lengths of the split) and zero in all other bits; in particular the
interrupt-on-completion bit (bit 31) is 0. -/
theorem exec_cmd_sg_flags (phys : Nat → Nat) (bufAddr L : Nat) :
    (buildSgs phys bufAddr L).map ahci_sg.flags_size
        = (sgLens L).map (fun l => l - 1) ∧
    ∀ e ∈ buildSgs phys bufAddr L,
      e.flags_size < 2 ^ 22 ∧ e.flags_size.testBit 31 = false := by
  refine ⟨buildSgs_map_flags phys bufAddr L, ?_⟩
  intro e he
  have hlt : e.flags_size < 2 ^ 22 :=
    buildSgsAux_flags_lt phys bufAddr (sg_cnt_of L) 0 L e he
  exact ⟨hlt, Nat.testBit_lt_two_pow (by omega)⟩

/-- C9: in `exec_cmd`, for every buffer whose length is at most
224 MiB (= 56 × 4 MiB) and positive, the computed scatter-gather count
`((len − 1) / 4 MiB) + 1` is at most 56, so the sg-limit error branch is
unreachable once the size check has passed: every such invocation reaches
the `CI` write. -/
theorem sg_limit_unreachable (L : Nat) (h1 : 0 < L)
    (h2 : L ≤ AHCI_MAX_BYTES_PER_CMD) :
    sg_cnt_of L ≤ AHCI_MAX_SG ∧
    ∀ (s : PortState) (a : ExecArgs), a.bufLen = L →
      (execCmdSt s a).ciWrites = s.ciWrites ++ [1 <<< slot] := by
  have hcnt : sg_cnt_of L ≤ AHCI_MAX_SG := by
    simp only [AHCI_MAX_BYTES_PER_CMD, AHCI_MAX_SG, AHCI_MAX_BYTES_PER_SG] at h2
    simp only [sg_cnt_of, AHCI_MAX_SG, AHCI_MAX_BYTES_PER_SG]
    omega
  refine ⟨hcnt, ?_⟩
  intro s a hlen
  have hsize : ¬a.bufLen > AHCI_MAX_BYTES_PER_CMD := by omega
  by_cases hnull : a.bufNull
  · simp [execCmdSt, hsize, hnull, issueCmd]
  · have hne : a.bufLen ≠ 0 := by omega
    have hguard : ¬sg_cnt_of a.bufLen > AHCI_MAX_SG := by
      rw [hlen]; omega
    simp [execCmdSt, hsize, hnull, hne, hguard, issueCmd]

theorem sg_limit_unreachable_witness :
    0 < 10485760 ∧ 10485760 ≤ AHCI_MAX_BYTES_PER_CMD ∧
    (sg_cnt_of 10485760 ≤ AHCI_MAX_SG ∧
      ∀ (s : PortState) (a : ExecArgs), a.bufLen = 10485760 →
        (execCmdSt s a).ciWrites = s.ciWrites ++ [1 <<< slot]) :=
  ⟨by decide, by decide, sg_limit_unreachable 10485760 (by decide) (by decide)⟩

/-! ## The Command Header `opts` word and slot discipline (C4, C6, C8) -/

theorem optsWord_bits : ∀ c : Nat, c < 57 → ∀ w : Bool,
    optsWord c w &&& 0x1F = 5 ∧
    (optsWord c w >>> 6) &&& 1 = (if w then 1 else 0) ∧
    optsWord c w >>> 16 = c := by decide

theorem execCmdSt_cmdList_slot (s : PortState) (a : ExecArgs)
    (h : a.bufLen ≤ AHCI_MAX_BYTES_PER_CMD) :
    (execCmdSt s a).cmdList slot =
      { opts := optsWord (execSgCnt a) a.is_write
        status := 0
        tbl_addr_lo := a.tblAddr % 2 ^ 32
        tbl_addr_hi := (a.tblAddr >>> 32) % 2 ^ 32
        reserved := 0 } := by
  have hsize : ¬a.bufLen > AHCI_MAX_BYTES_PER_CMD := by omega
  by_cases hnull : a.bufNull
  · simp [execCmdSt, execSgCnt, hsize, hnull, issueCmd]
  · by_cases hne : a.bufLen = 0
    · simp [execCmdSt, execSgCnt, hsize, hnull, hne, issueCmd]
    · have hguard : ¬sg_cnt_of a.bufLen > AHCI_MAX_SG := by
        simp only [AHCI_MAX_BYTES_PER_CMD, AHCI_MAX_SG,
          AHCI_MAX_BYTES_PER_SG] at h
        simp only [sg_cnt_of, AHCI_MAX_SG, AHCI_MAX_BYTES_PER_SG]
        omega
      simp [execCmdSt, execSgCnt, hsize, hnull, hne, hguard, issueCmd]

theorem execSgCnt_lt (a : ExecArgs) (h : a.bufLen ≤ AHCI_MAX_BYTES_PER_CMD) :
    execSgCnt a < 57 := by
  unfold execSgCnt
  split
  · simp only [AHCI_MAX_BYTES_PER_CMD, AHCI_MAX_SG,
      AHCI_MAX_BYTES_PER_SG] at h
    simp only [sg_cnt_of, AHCI_MAX_BYTES_PER_SG]
    omega
  · omega

/-- C4: for every `exec_cmd` invocation that issues a command, the `opts`
word written into Command List slot 0 satisfies `opts & 0x1F = 5` (Command
FIS length in dwords), `(opts >> 6) & 1` equals the `is_write` flag, and
`opts >> 16` equals the number of scatter-gather entries built for the
buffer (0 for an empty or null buffer). -/
theorem exec_cmd_opts (s : PortState) (a : ExecArgs)
    (h : a.bufLen ≤ AHCI_MAX_BYTES_PER_CMD) :
    ((execCmdSt s a).cmdList slot).opts &&& 0x1F = 5 ∧
    (((execCmdSt s a).cmdList slot).opts >>> 6) &&& 1
        = (if a.is_write then 1 else 0) ∧
    ((execCmdSt s a).cmdList slot).opts >>> 16 = execSgCnt a ∧
    execSgCnt a = (if ¬a.bufNull ∧ a.bufLen ≠ 0
        then (buildSgs a.phys a.bufAddr a.bufLen).length else 0) := by
  rw [execCmdSt_cmdList_slot s a h]
  have hbits := optsWord_bits (execSgCnt a) (execSgCnt_lt a h) a.is_write
  refine ⟨hbits.1, hbits.2.1, hbits.2.2, ?_⟩
  rw [buildSgs_length]
  rfl

theorem exec_cmd_opts_witness :
    sampleArgs.bufLen ≤ AHCI_MAX_BYTES_PER_CMD ∧
    (((execCmdSt initPortState sampleArgs).cmdList slot).opts &&& 0x1F = 5 ∧
      (((execCmdSt initPortState sampleArgs).cmdList slot).opts >>> 6) &&& 1
          = (if sampleArgs.is_write then 1 else 0) ∧
      ((execCmdSt initPortState sampleArgs).cmdList slot).opts >>> 16
          = execSgCnt sampleArgs ∧
      execSgCnt sampleArgs = (if ¬sampleArgs.bufNull ∧ sampleArgs.bufLen ≠ 0
          then (buildSgs sampleArgs.phys sampleArgs.bufAddr
            sampleArgs.bufLen).length else 0)) :=
  ⟨by decide, exec_cmd_opts initPortState sampleArgs (by decide)⟩

/-- C6: for every buffer with length strictly greater than 224 MiB,
`exec_cmd` does not issue the command: it returns before writing the FIS,
the scatter-gather entries, the command header, or the `CI` register, so the
port's DMA structures and `CI` log are left entirely unchanged. -/
theorem exec_cmd_too_large (s : PortState) (a : ExecArgs)
    (h : a.bufLen > AHCI_MAX_BYTES_PER_CMD) :
    execCmdSt s a = s := by
  simp [execCmdSt, h]

theorem exec_cmd_too_large_witness :
    sampleArgsTooLarge.bufLen > AHCI_MAX_BYTES_PER_CMD ∧
    execCmdSt initPortState sampleArgsTooLarge = initPortState :=
  ⟨by decide, exec_cmd_too_large initPortState sampleArgsTooLarge (by decide)⟩

theorem execCmdSt_cmdList_preserved (s : PortState) (a : ExecArgs)
    (j : Nat) (hj : j ≠ slot) :
    (execCmdSt s a).cmdList j = s.cmdList j := by
  simp only [execCmdSt, issueCmd]
  split
  · rfl
  · split
    · split
      · rfl
      · simp [hj]
    · simp [hj]

theorem execCmdSt_ciWrites (s : PortState) (a : ExecArgs) :
    (execCmdSt s a).ciWrites = s.ciWrites ∨
    (execCmdSt s a).ciWrites = s.ciWrites ++ [1 <<< slot] := by
  simp only [execCmdSt, issueCmd]
  split
  · left; rfl
  · split
    · split
      · left; rfl
      · right; rfl
    · right; rfl

/-- C8: every `exec_cmd` invocation writes a command header only into slot 0
of the 32-entry Command List and issues only `CI` bit 0; Command List slots
1 through 31 are never written by any sequence of invocations and remain in
their zero-initialized state. -/
theorem exec_cmd_slot0_only (cmds : List ExecArgs) (j : Nat)
    (hj : j ≠ slot) (hj32 : j < AHCI_MAX_CMDS) :
    (cmds.foldl execCmdSt initPortState).cmdList j = zeroHdr ∧
    ∀ c ∈ (cmds.foldl execCmdSt initPortState).ciWrites, c = 1 <<< slot := by
  suffices h : ∀ s : PortState,
      s.cmdList j = zeroHdr → (∀ c ∈ s.ciWrites, c = 1 <<< slot) →
      (cmds.foldl execCmdSt s).cmdList j = zeroHdr ∧
      ∀ c ∈ (cmds.foldl execCmdSt s).ciWrites, c = 1 <<< slot by
    exact h initPortState rfl (by simp [initPortState])
  induction cmds with
  | nil => intro s h1 h2; exact ⟨h1, h2⟩
  | cons a rest ih =>
    intro s h1 h2
    apply ih
    · rw [execCmdSt_cmdList_preserved s a j hj]
      exact h1
    · intro c hc
      rcases execCmdSt_ciWrites s a with h | h
      · exact h2 c (h ▸ hc)
      · rw [h] at hc
        rcases List.mem_append.1 hc with hc | hc
        · exact h2 c hc
        · simpa using hc

theorem exec_cmd_slot0_only_witness :
    (5 : Nat) ≠ slot ∧ 5 < AHCI_MAX_CMDS ∧
    ((([sampleArgs, sampleArgsTooLarge].foldl execCmdSt
        initPortState).cmdList 5 = zeroHdr) ∧
      ∀ c ∈ ([sampleArgs, sampleArgsTooLarge].foldl execCmdSt
        initPortState).ciWrites, c = 1 <<< slot) :=
  ⟨by decide, by decide,
    exec_cmd_slot0_only [sampleArgs, sampleArgsTooLarge] 5
      (by decide) (by decide)⟩

/-! ## FIS encoding (C2, C10) and the return value (C7) -/

theorem and_mask_ff (x : Nat) : x &&& 0xff = x % 2 ^ 8 := by
  rw [show (0xff : Nat) = 2 ^ 8 - 1 by norm_num]
  exact Nat.and_pow_two_sub_one_eq_mod x 8

theorem and_mask_0f (x : Nat) : x &&& 0x0f = x % 2 ^ 4 := by
  rw [show (0x0f : Nat) = 2 ^ 4 - 1 by norm_num]
  exact Nat.and_pow_two_sub_one_eq_mod x 4

/-- C2: the FIS `rw_common` constructs has `fis_type 0x27` and
`pm_port_c 0x80`; in LBA48 mode (`count ≤ 65536`) the command byte is
`0x24` for read / `0x34` for write, `lba_low/mid/high` carry LBA bits 0..23,
`lba_low/mid/high_exp` carry bits 24..47, `device` is `0x40`,
`sector_count = count & 0xFF` and `sector_count_exp = (count >> 8) & 0xFF`;
in LBA28 mode (`count ≤ 256`) the command byte is `0x20` for read / `0x30`
for write, `lba_low/mid/high` carry bits 0..23,
`device = 0x40 | ((lba >> 24) & 0x0F)` and `sector_count = count & 0xFF`;
in particular `count = 256` (LBA28) encodes as `sector_count = 0` and
`count = 65536` (LBA48) as `sector_count = 0` and `sector_count_exp = 0`. -/
theorem rw_fis_encoding (is_write : Bool) (lba count : Nat) :
    (count ≤ 65536 →
      (buildFis true is_write lba count).fis_type = 0x27 ∧
      (buildFis true is_write lba count).pm_port_c = 0x80 ∧
      (buildFis true is_write lba count).command
          = (if is_write then 0x34 else 0x24) ∧
      (buildFis true is_write lba count).lba_low = lba % 2 ^ 8 ∧
      (buildFis true is_write lba count).lba_mid = lba / 2 ^ 8 % 2 ^ 8 ∧
      (buildFis true is_write lba count).lba_high = lba / 2 ^ 16 % 2 ^ 8 ∧
      (buildFis true is_write lba count).lba_low_exp = lba / 2 ^ 24 % 2 ^ 8 ∧
      (buildFis true is_write lba count).lba_mid_exp = lba / 2 ^ 32 % 2 ^ 8 ∧
      (buildFis true is_write lba count).lba_high_exp = lba / 2 ^ 40 % 2 ^ 8 ∧
      (buildFis true is_write lba count).device = 0x40 ∧
      (buildFis true is_write lba count).sector_count = count % 2 ^ 8 ∧
      (buildFis true is_write lba count).sector_count_exp
          = count / 2 ^ 8 % 2 ^ 8) ∧
    (count ≤ 256 →
      (buildFis false is_write lba count).fis_type = 0x27 ∧
      (buildFis false is_write lba count).pm_port_c = 0x80 ∧
      (buildFis false is_write lba count).command
          = (if is_write then 0x30 else 0x20) ∧
      (buildFis false is_write lba count).lba_low = lba % 2 ^ 8 ∧
      (buildFis false is_write lba count).lba_mid = lba / 2 ^ 8 % 2 ^ 8 ∧
      (buildFis false is_write lba count).lba_high = lba / 2 ^ 16 % 2 ^ 8 ∧
      (buildFis false is_write lba count).device
          = 0x40 ||| lba / 2 ^ 24 % 2 ^ 4 ∧
      (buildFis false is_write lba count).sector_count = count % 2 ^ 8 ∧
      (buildFis false is_write lba count).sector_count_exp = 0) ∧
    (buildFis false is_write lba 256).sector_count = 0 ∧
    (buildFis true is_write lba 65536).sector_count = 0 ∧
    (buildFis true is_write lba 65536).sector_count_exp = 0 := by
  have hdev : ((lba >>> 24) % 2 ^ 8) &&& 0x0f = lba / 2 ^ 24 % 2 ^ 4 := by
    rw [and_mask_0f, Nat.shiftRight_eq_div_pow,
      Nat.mod_mod_of_dvd _ (by norm_num : (2 : Nat) ^ 4 ∣ 2 ^ 8)]
  refine ⟨fun h => ?_, fun h => ?_, ?_, ?_, ?_⟩
  · simp [buildFis, Nat.shiftRight_eq_div_pow, and_mask_ff, ATA_CMD_READ_EXT,
      ATA_CMD_WRITE_EXT, SATA_FIS_TYPE_REGISTER_H2D]
  · simp [buildFis, Nat.shiftRight_eq_div_pow, and_mask_ff, hdev, ATA_CMD_READ,
      ATA_CMD_WRITE, SATA_FIS_TYPE_REGISTER_H2D]
    rw [and_mask_0f]
    have hx : lba / 16777216 % 256 % 2 ^ 4 = lba / 16777216 % 16 := by omega
    rw [hx]
  · simp [buildFis]
    decide
  · simp [buildFis]
    decide
  · simp [buildFis]
    decide

theorem rw_fis_encoding_witness :
    (1 : Nat) ≤ 65536 ∧ (1 : Nat) ≤ 256 ∧
    ((buildFis true false 42 1).command = (if false then 0x34 else 0x24) ∧
      (buildFis true false 42 1).lba_low = 42 % 2 ^ 8 ∧
      (buildFis true false 42 1).sector_count = 1 % 2 ^ 8) :=
  ⟨by decide, by decide,
    by
      have h := (rw_fis_encoding false 42 1).1 (by decide)
      exact ⟨h.2.2.1, h.2.2.2.1, h.2.2.2.2.2.2.2.2.2.2.1⟩⟩

/-- C10: `read` and `write` never check `block_id` against the device
capacity (the return value is `true` for every LBA), and in LBA28 mode the
constructed FIS depends only on the starting LBA modulo `2^28`: for every
pair of LBAs that agree in bits 0..27, the LBA28 FIS fields `lba_low`,
`lba_mid`, `lba_high` and `device` are identical, so bits 28 and above of
`block_id` are silently discarded. -/
theorem lba28_truncation (is_write : Bool) (lba1 lba2 count bufLen : Nat)
    (h : lba1 % 2 ^ 28 = lba2 % 2 ^ 28) :
    (buildFis false is_write lba1 count).lba_low
        = (buildFis false is_write lba2 count).lba_low ∧
    (buildFis false is_write lba1 count).lba_mid
        = (buildFis false is_write lba2 count).lba_mid ∧
    (buildFis false is_write lba1 count).lba_high
        = (buildFis false is_write lba2 count).lba_high ∧
    (buildFis false is_write lba1 count).device
        = (buildFis false is_write lba2 count).device ∧
    (rw_common false lba1 bufLen is_write).2 = true := by
  refine ⟨?_, ?_, ?_, ?_, rfl⟩
  · have h1 : lba1 % 256 = lba2 % 256 := by omega
    have h2 : lba1 % 2 ^ 8 = lba2 % 2 ^ 8 := by omega
    simp [buildFis, h1, h2]
  · have h1 : lba1 / 256 % 256 = lba2 / 256 % 256 := by omega
    have h2 : lba1 / 2 ^ 8 % 2 ^ 8 = lba2 / 2 ^ 8 % 2 ^ 8 := by omega
    simp [buildFis, Nat.shiftRight_eq_div_pow, h1, h2]
  · have h1 : lba1 / 65536 % 256 = lba2 / 65536 % 256 := by omega
    have h2 : lba1 / 2 ^ 16 % 2 ^ 8 = lba2 / 2 ^ 16 % 2 ^ 8 := by omega
    simp [buildFis, Nat.shiftRight_eq_div_pow, h1, h2]
  · have h1 : lba1 / 16777216 % 256 &&& 15 = lba2 / 16777216 % 256 &&& 15 := by
      rw [and_mask_0f, and_mask_0f]
      omega
    have h2 : lba1 / 2 ^ 24 % 2 ^ 8 &&& 15 = lba2 / 2 ^ 24 % 2 ^ 8 &&& 15 := by
      rw [and_mask_0f, and_mask_0f]
      omega
    simp [buildFis, Nat.shiftRight_eq_div_pow, h1, h2]

theorem lba28_truncation_witness :
    (0x10000002A : Nat) % 2 ^ 28 = (42 : Nat) % 2 ^ 28 ∧
    ((buildFis false true 0x10000002A 1).lba_low
        = (buildFis false true 42 1).lba_low ∧
      (buildFis false true 0x10000002A 1).device
        = (buildFis false true 42 1).device) :=
  ⟨by decide,
    by
      have h := lba28_truncation true 0x10000002A 42 1 512 (by decide)
      exact ⟨h.1, h.2.2.2.1⟩⟩

/-- C7: for every `block_id` and every buffer length, `read` and `write`
return `true`: command-path errors (slot-busy timeout, oversized buffer,
command-completion timeout) are never propagated to the caller through the
return value. -/
theorem read_write_always_true (is_lba48 : Bool) (block_id bufLen : Nat) :
    (driverRead is_lba48 block_id bufLen).2 = true ∧
    (driverWrite is_lba48 block_id bufLen).2 = true :=
  ⟨rfl, rfl⟩

/-! ## The `rw_common` splitting loop (C3) -/

theorem rwAux_spec (is_lba48 is_write : Bool) :
    ∀ fuel start rem off, rem ≤ fuel → rem % block_size = 0 →
      ((rwAux is_lba48 is_write fuel start rem off).map RwCall.bytes).sum
          = rem ∧
      (∀ c ∈ rwAux is_lba48 is_write fuel start rem off,
        c.count ≤ (if is_lba48 then 65536 else 256) ∧
        c.bytes = c.count * block_size ∧ 0 < c.count) ∧
      List.Chain' rwChainRel (rwAux is_lba48 is_write fuel start rem off) ∧
      (∀ c ∈ (rwAux is_lba48 is_write fuel start rem off).head?,
        c.start = start ∧ c.buf_offset = off) ∧
      (rwAux is_lba48 is_write fuel start rem off = [] ↔ rem = 0) ∧
      ((if is_lba48 then 65536 else 256) * block_size < rem →
        2 ≤ (rwAux is_lba48 is_write fuel start rem off).length) := by
  intro fuel
  induction fuel with
  | zero =>
    intro start rem off hf hm
    have h0 : rem = 0 := by omega
    subst h0
    simp [rwAux, List.Chain']
  | succ fuel ih =>
    intro start rem off hf hm
    by_cases h0 : rem = 0
    · subst h0
      simp [rwAux, List.Chain']
    · simp only [rwAux, if_neg h0]
      have e1 : (rem + (block_size - 1)) / block_size = rem / block_size := by
        simp only [block_size] at hm ⊢
        omega
      rw [e1]
      set cap : Nat := if is_lba48 then 65536 else 256 with hcap
      have hcap_pos : 0 < cap := by
        rw [hcap]
        split <;> norm_num
      set cnt : Nat := min (rem / block_size) cap with hcnt
      have hsec1 : 1 ≤ rem / block_size := by
        simp only [block_size] at hm ⊢
        omega
      have hcnt_pos : 0 < cnt := by
        rw [hcnt]
        exact le_min hsec1 hcap_pos
      have hcnt_cap : cnt ≤ cap := by
        rw [hcnt]
        exact min_le_right _ _
      have hbc : cnt * block_size ≤ rem := by
        have h1 : cnt ≤ rem / block_size := by
          rw [hcnt]
          exact min_le_left _ _
        have h2 : cnt * block_size ≤ rem / block_size * block_size :=
          Nat.mul_le_mul_right _ h1
        have h3 : rem / block_size * block_size = rem :=
          Nat.div_mul_cancel (Nat.dvd_of_mod_eq_zero hm)
        omega
      have e2 : min (cnt * block_size) rem = cnt * block_size :=
        Nat.min_eq_left hbc
      rw [e2]
      have hm' : (rem - cnt * block_size) % block_size = 0 := by
        simp only [block_size] at hm ⊢
        omega
      have hf' : rem - cnt * block_size ≤ fuel := by
        have : block_size ≤ cnt * block_size :=
          Nat.le_mul_of_pos_left _ hcnt_pos
        simp only [block_size] at this hm ⊢
        omega
      obtain ⟨IH1, IH2, IH3, IH4, IH5, IH6⟩ :=
        ih (start + cnt) (rem - cnt * block_size) (off + cnt * block_size)
          hf' hm'
      refine ⟨?_, ?_, ?_, ?_, ?_, ?_⟩
      · simp only [List.map_cons, List.sum_cons, IH1]
        omega
      · intro c hc
        rcases List.mem_cons.1 hc with hc | hc
        · subst hc
          exact ⟨hcnt_cap, rfl, hcnt_pos⟩
        · exact IH2 c hc
      · rw [List.chain'_cons']
        refine ⟨?_, IH3⟩
        intro y hy
        obtain ⟨hy1, hy2⟩ := IH4 y hy
        exact ⟨hy1, hy2⟩
      · intro c hc
        simp only [List.head?_cons, Option.mem_def, Option.some.injEq] at hc
        subst hc
        exact ⟨rfl, rfl⟩
      · simp [h0]
      · intro hbig
        have h6 : cnt * block_size ≤ cap * block_size :=
          Nat.mul_le_mul_right _ hcnt_cap
        have hne : rem - cnt * block_size ≠ 0 := by omega
        have htail : rwAux is_lba48 is_write fuel (start + cnt)
            (rem - cnt * block_size) (off + cnt * block_size) ≠ [] := by
          rw [ne_eq, IH5]
          exact hne
        have hlen : 0 < (rwAux is_lba48 is_write fuel (start + cnt)
            (rem - cnt * block_size) (off + cnt * block_size)).length :=
          List.length_pos.2 htail
        simp only [List.length_cons]
        omega

/-- C3: for every call of `read` or `write` with a buffer whose length `L`
is a positive multiple of 512, the pipeline issues a sequence of `exec_cmd`
calls such that: each call transfers at most 65536 sectors (LBA48) or 256
sectors (LBA28), the per-call byte counts sum to `L` (each call moving
`count * 512` bytes), the starting LBA and buffer offset of call `k+1`
continue exactly where call `k` ended (so the buffer ranges are consecutive
and disjoint), the first call starts at `block_id` with offset 0, and a byte
range exceeding the per-protocol sector cap is split into at least two
`exec_cmd` calls. -/
theorem rw_common_split (is_lba48 is_write : Bool) (block_id bufLen : Nat)
    (h1 : 0 < bufLen) (h2 : bufLen % block_size = 0) :
    (((rw_common is_lba48 block_id bufLen is_write).1.map RwCall.bytes).sum
        = bufLen) ∧
    (∀ c ∈ (rw_common is_lba48 block_id bufLen is_write).1,
      c.count ≤ (if is_lba48 then 65536 else 256) ∧
      c.bytes = c.count * block_size) ∧
    List.Chain' rwChainRel (rw_common is_lba48 block_id bufLen is_write).1 ∧
    (∀ c ∈ (rw_common is_lba48 block_id bufLen is_write).1.head?,
      c.start = block_id ∧ c.buf_offset = 0) ∧
    ((if is_lba48 then 65536 else 256) * block_size < bufLen →
      2 ≤ (rw_common is_lba48 block_id bufLen is_write).1.length) := by
  obtain ⟨g1, g2, g3, g4, g5, g6⟩ :=
    rwAux_spec is_lba48 is_write bufLen block_id bufLen 0 le_rfl h2
  exact ⟨g1, fun c hc => ⟨(g2 c hc).1, (g2 c hc).2.1⟩, g3, g4, g6⟩

theorem rw_common_split_witness :
    (0 : Nat) < 131584 ∧ (131584 : Nat) % block_size = 0 ∧
    ((((rw_common false 0 131584 true).1.map RwCall.bytes).sum = 131584) ∧
      (∀ c ∈ (rw_common false 0 131584 true).1,
        c.count ≤ (if false then 65536 else 256) ∧
        c.bytes = c.count * block_size) ∧
      List.Chain' rwChainRel (rw_common false 0 131584 true).1 ∧
      (∀ c ∈ (rw_common false 0 131584 true).1.head?,
        c.start = 0 ∧ c.buf_offset = 0) ∧
      ((if false then 65536 else 256) * block_size < 131584 →
        2 ≤ (rw_common false 0 131584 true).1.length)) :=
  ⟨by decide, by decide, rw_common_split false true 0 131584 (by decide) (by decide)⟩
